import Mathlib

/-!
Shallow embedding of the i18n translation module (src/i18n.js).

The source ships two near-duplicate variants: a singleton-style export
(module-level state, `i18n.configure` / `i18n.initialize` /
`i18n.loadLanguage` / `i18n.getLocaleForLanguage` / `i18n.middleware`)
and a class-based export (`I18n`, same operations on instance state).
Both variants are embedded here over a single state type `St`; where they
differ (the default-locale fallback of `getLocaleForLanguage`, and the
catch handler of the no-catalog `vsprintf` fallback inside the attached
translation closures) both behaviours are modelled separately.

External libraries are modelled at their interface:
- the Jed runtime catalog (`locale.translate(...).fetch(...)`) is an opaque
  total function (PO parsing and gettext plural evaluation are explicit
  non-goals of the specification);
- `vsprintf` may throw, so it is a function into `Except`;
- `po2json.parseFile` and `fs.existsSync` are fields of an environment
  record `Env`;
- `async.each` is modelled as a deterministic fan-out over every item of
  the list, joined at the end, reporting the first error in list order;
- `path.join` of well-formed segments is string concatenation with "/".

JavaScript-specific behaviour that the module relies on is modelled
explicitly: truthiness (`JsVal.truthy`, `LocRef.truthy`), property-key
coercion of non-string keys (`LocRef.key`), `_.compact` removing every
falsy element, and objects as association lists with insert-or-overwrite
assignment (`insertA`).
-/

namespace I18nModel

/-- Model of a JavaScript value, sufficient for the truthiness tests and
strict-equality comparisons the module performs.  Objects and functions are
identified by an opaque id and are always truthy. -/
inductive JsVal where
  | null
  | undef
  | bool (b : Bool)
  | num (n : Int)
  | str (s : String)
  | obj (id : Nat)
  | func (id : Nat)
  deriving DecidableEq, Repr

/-- JavaScript truthiness: `null`, `undefined`, `false`, `0` and the empty
string are falsy; every object and function is truthy. -/
def JsVal.truthy : JsVal → Bool
  | .null => false
  | .undef => false
  | .bool b => b
  | .num n => n != 0
  | .str s => s != ""
  | .obj _ => true
  | .func _ => true

/-- underscore's `_.compact(array)`: keeps exactly the truthy elements, in
order. -/
def uCompact (l : List JsVal) : List JsVal :=
  l.filter JsVal.truthy

/-- Argument preprocessing performed by `locale.__` (src/i18n.js lines
194-199): the full `arguments` list is copied; when it has at least two
entries, slot 0 and the last slot are overwritten with `null` and the list
is then passed through `_.compact`. -/
def trProcessArgs (args : List JsVal) : List JsVal :=
  if 2 ≤ args.length then
    uCompact ((args.set 0 .null).set (args.length - 1) .null)
  else args

/-- Argument preprocessing performed by `locale._n` (src/i18n.js lines
228-234): with at least four entries, slots 0, 1 and the last slot are
overwritten with `null` and the list is passed through `_.compact`. -/
def trnProcessArgs (args : List JsVal) : List JsVal :=
  if 4 ≤ args.length then
    uCompact (((args.set 0 .null).set 1 .null).set (args.length - 1) .null)
  else args

/-- The Jed runtime catalog object built by `new Jed(data)`.  Its lookup
calls are modelled as opaque total functions (the gettext runtime is a
delegated third-party library and an explicit non-goal of the spec):
`fetchTr text args` models `locale.translate(text).fetch(args)` and
`fetchTrn s p n args` models
`locale.translate(s).ifPlural(n, p).fetch(args)`. -/
structure Catalog where
  fetchTr : JsVal → List JsVal → String
  fetchTrn : JsVal → JsVal → JsVal → List JsVal → String

/-- `vsprintf` from the sprintf package: formatting a template can throw,
so it is modelled as a function into `Except`. -/
abbrev Vsprintf := JsVal → List JsVal → Except Unit String

/-- A thrown JavaScript error escaping a translation function.  The only
way the module itself can throw from a translation closure is the
singleton variant's catch handler, which dereferences the undefined
global identifier `Logger` (a `ReferenceError`). -/
inductive JsError where
  | refErr (name : String)
  deriving DecidableEq, Repr

/-- Trace of one invocation of an attached translation closure: the value
returned (or error thrown), the argument list handed to whichever
formatter ran (catalog `fetch` or fallback `vsprintf`), whether the
no-catalog fallback branch ran, and whether the undefined global `Logger`
was dereferenced. -/
structure TrTrace where
  result : Except JsError JsVal
  formatterArgs : List JsVal
  usedFallback : Bool
  evaluatedLogger : Bool

/-- Body of the singleton variant's `locale.__` closure (src/i18n.js lines
193-214).  `localeRef` is the captured `locale` variable (`none` models a
falsy reference, taking the `else` branch).  On the fallback path, a
`vsprintf` failure reaches `Logger.error(err)` where `Logger` is an
undefined identifier in this variant, so a `ReferenceError` is thrown
before `translated = text` can run. -/
def tr_body (localeRef : Option Catalog) (vs : Vsprintf) (argsIn : List JsVal) : TrTrace :=
  let text := argsIn.headD .undef
  let args := trProcessArgs argsIn
  match localeRef with
  | some c => ⟨.ok (.str (c.fetchTr text args)), args, false, false⟩
  | none =>
      match vs text args with
      | .ok s => ⟨.ok (.str s), args, true, false⟩
      | .error _ => ⟨.error (.refErr "Logger"), args, true, true⟩

/-- Body of the singleton variant's `locale._n` closure (src/i18n.js lines
227-256).  The fallback path chooses the singular template iff
`number === 1`; its catch handlers dereference the undefined `Logger`. -/
def trn_body (localeRef : Option Catalog) (vs : Vsprintf) (argsIn : List JsVal) : TrTrace :=
  let sText := argsIn.headD .undef
  let pText := (argsIn[1]?).getD .undef
  let number := (argsIn[2]?).getD .undef
  let args := trnProcessArgs argsIn
  match localeRef with
  | some c => ⟨.ok (.str (c.fetchTrn sText pText number args)), args, false, false⟩
  | none =>
      if number = .num 1 then
        match vs sText args with
        | .ok s => ⟨.ok (.str s), args, true, false⟩
        | .error _ => ⟨.error (.refErr "Logger"), args, true, true⟩
      else
        match vs pText args with
        | .ok s => ⟨.ok (.str s), args, true, false⟩
        | .error _ => ⟨.error (.refErr "Logger"), args, true, true⟩

/-- Body of the class variant's `locale.__` closure (src/i18n.js lines
497-518): identical except the catch handler calls the defined
`that.logErrorFn` and then returns the unformatted `text`. -/
def trClass_body (localeRef : Option Catalog) (vs : Vsprintf) (argsIn : List JsVal) : TrTrace :=
  let text := argsIn.headD .undef
  let args := trProcessArgs argsIn
  match localeRef with
  | some c => ⟨.ok (.str (c.fetchTr text args)), args, false, false⟩
  | none =>
      match vs text args with
      | .ok s => ⟨.ok (.str s), args, true, false⟩
      | .error _ => ⟨.ok text, args, true, false⟩

/-- Body of the class variant's `locale._n` closure (src/i18n.js lines
531-560): on a `vsprintf` failure it logs via `that.logErrorFn` and
returns the untranslated singular or plural template, chosen by
`number === 1`. -/
def trnClass_body (localeRef : Option Catalog) (vs : Vsprintf) (argsIn : List JsVal) : TrTrace :=
  let sText := argsIn.headD .undef
  let pText := (argsIn[1]?).getD .undef
  let number := (argsIn[2]?).getD .undef
  let args := trnProcessArgs argsIn
  match localeRef with
  | some c => ⟨.ok (.str (c.fetchTrn sText pText number args)), args, false, false⟩
  | none =>
      if number = .num 1 then
        match vs sText args with
        | .ok s => ⟨.ok (.str s), args, true, false⟩
        | .error _ => ⟨.ok sText, args, true, false⟩
      else
        match vs pText args with
        | .ok s => ⟨.ok (.str s), args, true, false⟩
        | .error _ => ⟨.ok pText, args, true, false⟩

/-- Attachment site of the `__` closure: `loadLanguage` creates the
closures only inside the `if (locale)` guard, after `locale = new Jed(data)`
has produced an object, so the captured reference is always the truthy
catalog, modelled as `some c`. -/
def attachTr (c : Catalog) : Vsprintf → List JsVal → TrTrace :=
  fun vs argsIn => tr_body (some c) vs argsIn

/-- Attachment site of the `_n` closure; see `attachTr`. -/
def attachTrn (c : Catalog) : Vsprintf → List JsVal → TrTrace :=
  fun vs argsIn => trn_body (some c) vs argsIn

/-- Whether a translation call returned normally (no thrown error). -/
def exceptOk : Except JsError JsVal → Bool
  | .ok _ => true
  | .error _ => false

/-- A `vsprintf` that fails on every input, for exercising the fallback
catch handlers. -/
def vsFail : Vsprintf := fun _ _ => .error ()

/-- One entry of the language registry: `{name, plurals}`.  The module
checks both fields for truthiness, so they are strings (empty = falsy). -/
structure LangInfo where
  name : String
  plurals : String
  deriving DecidableEq, Repr

/-- A loaded locale as stored in `loadedLanguages`: the Jed object, carrying
the language `code` assigned by `loadLanguage` and an id for the parsed
catalog data it wraps. -/
structure Locale where
  code : String
  catId : Nat
  deriving DecidableEq, Repr

/-- The value held by the `defaultLocale` variable: `undefined` before any
assignment, a code string after `configure`, or a `Locale` object after
first-loaded-wins assignment in `loadLanguage`. -/
inductive LocRef where
  | undef
  | str (s : String)
  | locale (l : Locale)
  deriving DecidableEq, Repr

/-- Truthiness of the `defaultLocale` variable. -/
def LocRef.truthy : LocRef → Bool
  | .undef => false
  | .str s => s != ""
  | .locale _ => true

/-- JavaScript property-key coercion applied when the class variant
evaluates `that.loadedLanguages[that.defaultLocale]`: a string is used
as-is, `undefined` becomes the key "undefined", and an object becomes its
default string form. -/
def LocRef.key : LocRef → String
  | .undef => "undefined"
  | .str s => s
  | .locale _ => "[object Object]"

/-- Association-list lookup, modelling JavaScript property access on the
plain objects the module uses as maps. -/
def lookupA {α : Type} : List (String × α) → String → Option α
  | [], _ => none
  | (k, v) :: rest, key => if k = key then some v else lookupA rest key

/-- The keys of an association list, modelling `Object.keys`. -/
def keysA {α : Type} (m : List (String × α)) : List String :=
  m.map Prod.fst

/-- Property assignment `m[k] = v`: overwrite in place if the key exists,
append otherwise. -/
def insertA {α : Type} : List (String × α) → String → α → List (String × α)
  | [], k, v => [(k, v)]
  | (k0, v0) :: rest, k, v =>
      if k0 = k then (k, v) :: rest else (k0, v0) :: insertA rest k v

/-- The module/instance state shared by both variants: the fields set by
`i18n.configure` and by the `I18n` constructor. -/
structure St where
  defaultLocale : LocRef
  languages : List (String × LangInfo)
  languageCodes : List String
  pathToTranslations : String
  loadedLanguages : List (String × Locale)
  middlewareCodes : Option (List String)
  deriving DecidableEq, Repr

/-- Log level, identifying which of the four configured log callbacks an
event went through. -/
inductive LogLevel where
  | debug
  | info
  | warn
  | error
  deriving DecidableEq, Repr

/-- One emitted log event. -/
structure LogEvent where
  level : LogLevel
  msg : String
  deriving DecidableEq, Repr

/-- The recognized configuration options.  `defaultLocale` and
`pathToTranslations` are arbitrary values tested with `typeof === "string"`;
`languages` is tested with `typeof === "object"`, modelled as an optional
association list. -/
structure ConfigOptions where
  defaultLocale : JsVal
  languages : Option (List (String × LangInfo))
  pathToTranslations : JsVal

/-- `path.join` on well-formed segments. -/
def pathJoin (a b : String) : String := a ++ "/" ++ b

/-- `i18n.configure(options)` (src/i18n.js lines 27-57), and identically the
field initialisation of the `I18n` constructor (lines 331-364): establishes
the state and emits an error-level log through the configured error
callback when the registry is empty. -/
def configure (cwd : String) (o : ConfigOptions) : St × List LogEvent :=
  let dl : LocRef := match o.defaultLocale with | .str s => .str s | _ => .str "en"
  let langs := o.languages.getD []
  let codes := keysA langs
  let ptt := match o.pathToTranslations with | .str s => s | _ => pathJoin cwd "i18n"
  ({ defaultLocale := dl, languages := langs, languageCodes := codes,
     pathToTranslations := ptt, loadedLanguages := [], middlewareCodes := none },
   if codes.length = 0 then [⟨.error, "No languages defined, nothing to handle"⟩] else [])

/-- The file-system and PO-parser environment consumed during
initialization: `fs.existsSync` and `po2json.parseFile` (which either
fails with a message or yields parsed catalog data, identified by an id). -/
structure Env where
  fileExists : String → Bool
  parsePo : String → Except String Nat

/-- The catalog file path `<pathToTranslations>/<code>/LC_MESSAGES/messages.po`. -/
def poFileName (ptt code : String) : String :=
  ptt ++ "/" ++ code ++ "/LC_MESSAGES/messages.po"

/-- `i18n.loadLanguage(code, plurals, poFile, callback)` (src/i18n.js lines
147-271), state-level behaviour: parse the PO file; on success build the
Jed locale, register it under `code`, and, if `defaultLocale` is falsy,
remember this first locale as the default.  The returned `Option String`
is the error handed to the callback (`none` on success). -/
def loadLanguage (env : Env) (st : St) (code : String) ( _info : LangInfo)
    (file : String) : St × Option String :=
  match env.parsePo file with
  | .error e => (st, some ("Error parsing po file for " ++ code ++ ": " ++ e))
  | .ok catId =>
      let loc : Locale := ⟨code, catId⟩
      let st1 := { st with loadedLanguages := insertA st.loadedLanguages code loc }
      let st2 := if st1.defaultLocale.truthy then st1
                 else { st1 with defaultLocale := .locale loc }
      (st2, none)

/-- The per-code iterator body of `i18n.initialize` (src/i18n.js lines
111-131): look up the registry entry, require truthy `name` and `plurals`,
require the catalog file to exist, then delegate to `loadLanguage`. -/
def initItem (env : Env) (st : St) (code : String) : St × Option String :=
  match lookupA st.languages code with
  | some inf =>
      if inf.name != "" && inf.plurals != "" then
        let file := poFileName st.pathToTranslations code
        if env.fileExists file then
          loadLanguage env st code inf file
        else
          (st, some ("Could not locate language file " ++ file))
      else
        (st, some ("No plural information for " ++ code))
  | none => (st, some ("No plural information for " ++ code))

/-- The outcome (`none` = success, `some e` = the per-item error) of one
item of initialization, as a function of the static inputs only.  The
outcome of a code does not depend on `loadedLanguages` or `defaultLocale`,
which is what makes the per-item fates independent. -/
def itemOutcome (env : Env) (langs : List (String × LangInfo)) (ptt : String)
    (code : String) : Option String :=
  match lookupA langs code with
  | some inf =>
      if inf.name != "" && inf.plurals != "" then
        let file := poFileName ptt code
        if env.fileExists file then
          match env.parsePo file with
          | .error e => some ("Error parsing po file for " ++ code ++ ": " ++ e)
          | .ok _ => none
      else
          some ("Could not locate language file " ++ file)
      else
        some ("No plural information for " ++ code)
  | none => some ("No plural information for " ++ code)

/-- The `Locale` object that a successful load of `code` constructs. -/
def loadedLocale (env : Env) (ptt code : String) : Locale :=
  ⟨code, match env.parsePo (poFileName ptt code) with | .ok n => n | .error _ => 0⟩

/-- The fan-out of `async.each(languageCodes, ...)` over the item iterator,
modelled deterministically: every item is attempted, state updates are
threaded, and the aggregated error is the first per-item error in list
order (`none` when all items succeed). -/
def initLoop (env : Env) : List String → St → St × Option String
  | [], st => (st, none)
  | c :: cs, st =>
      let r := initItem env st c
      let rest := initLoop env cs r.fst
      (rest.fst, r.snd <|> rest.snd)

/-- `i18n.initialize(callback)` (src/i18n.js lines 109-145): run the item
iterator over every registered language code and invoke the completion
callback with the aggregated error. -/
def runInit (env : Env) (st : St) : St × Option String :=
  initLoop env st.languageCodes st

/-- The first code in the list whose initialization item succeeds. -/
def firstSuccess (env : Env) (langs : List (String × LangInfo)) (ptt : String) :
    List String → Option String
  | [] => none
  | c :: cs =>
      if itemOutcome env langs ptt c = none then some c
      else firstSuccess env langs ptt cs

/-- `i18n.getLocaleForLanguage(code)`, singleton variant (src/i18n.js lines
273-286): the loaded locale for a truthy, registered code; otherwise
whatever `defaultLocale` currently holds (a code string, a locale object,
or `undefined`). -/
def getLocaleForLanguage (st : St) (code : Option String) : LocRef :=
  match code with
  | some s =>
      if s != "" then
        match lookupA st.loadedLanguages s with
        | some l => .locale l
        | none => st.defaultLocale
      else st.defaultLocale
  | none => st.defaultLocale

/-- `this.getLocaleForLanguage(code)`, class variant (src/i18n.js lines
577-590): the fallback instead evaluates
`that.loadedLanguages[that.defaultLocale]`, i.e. looks the default up in
`loadedLanguages` under JS key coercion — which is `undefined` when that
key never successfully loaded. -/
def classGetLocaleForLanguage (st : St) (code : Option String) : Option Locale :=
  match code with
  | some s =>
      if s != "" then
        match lookupA st.loadedLanguages s with
        | some l => some l
        | none => lookupA st.loadedLanguages st.defaultLocale.key
      else lookupA st.loadedLanguages st.defaultLocale.key
  | none => lookupA st.loadedLanguages st.defaultLocale.key

/-- State effect of invoking `i18n.middleware` (src/i18n.js lines 60-105)
on module state: lazily caches the negotiation middleware built over
`languageCodes`.  Per-request work mutates only the request and response
objects, never the module state. -/
def middlewareStep (st : St) : St :=
  match st.middlewareCodes with
  | some _ => st
  | none => { st with middlewareCodes := some st.languageCodes }

/-- The module-level operations whose interleavings the invariant claim
quantifies over. -/
inductive Op where
  | opConfigure (cwd : String) (o : ConfigOptions)
  | opInit (env : Env)
  | opGetLocale (code : Option String)
  | opMiddleware

/-- State transition of one operation.  `getLocaleForLanguage` only reads
module state, so its step is the identity. -/
def stepOp (st : St) : Op → St
  | .opConfigure cwd o => (configure cwd o).fst
  | .opInit env => (runInit env st).fst
  | .opGetLocale _ => st
  | .opMiddleware => middlewareStep st

/-- The invariant: every key of `loadedLanguages` is a key of the registry. -/
def Inv (st : St) : Bool :=
  (keysA st.loadedLanguages).all (fun k => decide (k ∈ keysA st.languages))

/-- A reference to one of the two translation closures of a locale, as
stored in the injected helpers. -/
inductive FnRef where
  | trFn (l : Locale)
  | trnFn (l : Locale)
  deriving DecidableEq, Repr

/-- The `options` argument of a `res.render` call: an options object, a
function (the caller's callback in shifted position), or `undefined`. -/
inductive OptArg where
  | obj (fields : List (String × JsVal))
  | fn (id : Nat)
  | undef
  deriving DecidableEq, Repr

/-- The call the wrapped `res.render` makes to the original render
implementation (bound to the response): view name, plain option fields,
the merged `helpers` object, and the callback. -/
structure RenderInvocation where
  view : String
  fields : List (String × JsVal)
  helpers : List (String × FnRef)
  callback : Option Nat
  deriving DecidableEq, Repr

/-- The helpers object `{tr, __, trn, _n}` bound to the resolved locale's
two translation closures (src/i18n.js lines 90-95). -/
def mkHelpers (l : Locale) : List (String × FnRef) :=
  [("tr", .trFn l), ("__", .trFn l), ("trn", .trnFn l), ("_n", .trnFn l)]

/-- The wrapped `res.render` installed by the middleware (src/i18n.js lines
84-100): if `callback` is `undefined` and `options` is a function, shift
`options` into the callback position and synthesize a fresh `{}`; then
merge `{helpers: ...}` into a copy of the options
(`_.extend({}, options, {helpers})`, so an existing `helpers` field is
overridden) and invoke the original render. -/
def wrapRender (l : Locale) (view : String) (options : OptArg)
    (callback : Option Nat) : RenderInvocation :=
  let shifted : OptArg × Option Nat :=
    match callback, options with
    | none, .fn f => (.obj [], some f)
    | cb, o => (o, cb)
  let base : List (String × JsVal) :=
    match shifted.fst with
    | .obj fs => fs
    | _ => []
  { view := view,
    fields := base.filter (fun q => q.fst != "helpers"),
    helpers := mkHelpers l,
    callback := shifted.snd }

/-- Registry entry used by the concrete examples. -/
def deInfo : LangInfo := ⟨"German", "nplurals=2"⟩

/-- Options: no default-locale or path options, one registered language. -/
def optsDe : ConfigOptions := ⟨.undef, some [("de", deInfo)], .undef⟩

/-- Environment where every catalog file exists and parses to data id 7. -/
def envOk : Env := ⟨fun _ => true, fun _ => .ok 7⟩

/-- Example state: default "en" configured, only "de" loaded. -/
def stEx : St :=
  ⟨.str "en", [("de", deInfo)], ["de"], "/app/i18n", [("de", ⟨"de", 1⟩)], none⟩

/-- A concrete catalog whose lookups all yield "T". -/
def catEx : Catalog := ⟨fun _ _ => "T", fun _ _ _ _ => "T"⟩

end I18nModel

namespace I18nModel

/-! Helper lemmas about `_.compact` and the argument preprocessing. -/

theorem uCompact_cons (x : JsVal) (l : List JsVal) :
    uCompact (x :: l) = if x.truthy then x :: uCompact l else uCompact l := by
  simp [uCompact, List.filter_cons]

theorem uCompact_null_cons (l : List JsVal) : uCompact (.null :: l) = uCompact l := by
  simp [uCompact, List.filter_cons, JsVal.truthy]

theorem setLast_uCompact (l : List JsVal) (h : l ≠ []) :
    uCompact (l.set (l.length - 1) .null) = uCompact l.dropLast := by
  induction l with
  | nil => exact absurd rfl h
  | cons a t ih =>
    cases t with
    | nil => simp [uCompact, List.filter, JsVal.truthy]
    | cons b t2 =>
      have hlen : (a :: b :: t2).length - 1 = (b :: t2).length - 1 + 1 := by
        simp
      rw [hlen]
      show uCompact (a :: (b :: t2).set ((b :: t2).length - 1) .null)
          = uCompact (a :: b :: t2).dropLast
      rw [show (a :: b :: t2).dropLast = a :: (b :: t2).dropLast from rfl]
      rw [uCompact_cons, uCompact_cons, ih (by simp)]

theorem trProcessArgs_middle (args : List JsVal) (h : 2 ≤ args.length) :
    trProcessArgs args = uCompact (args.drop 1).dropLast := by
  cases args with
  | nil => simp at h
  | cons a t =>
    cases t with
    | nil => simp at h
    | cons b t2 =>
      unfold trProcessArgs
      rw [if_pos h]
      have hlen : (a :: b :: t2).length - 1 = (b :: t2).length - 1 + 1 := by simp
      rw [show (a :: b :: t2).set 0 .null = .null :: b :: t2 from rfl, hlen]
      show uCompact (.null :: (b :: t2).set ((b :: t2).length - 1) .null)
          = uCompact ((a :: b :: t2).drop 1).dropLast
      rw [uCompact_null_cons, setLast_uCompact (b :: t2) (by simp)]
      rfl

theorem trnProcessArgs_middle (args : List JsVal) (h : 4 ≤ args.length) :
    trnProcessArgs args = uCompact (args.drop 2).dropLast := by
  cases args with
  | nil => simp at h
  | cons a t =>
    cases t with
    | nil => simp at h
    | cons b r =>
      have hr : 2 ≤ r.length := by
        have := h
        simp [List.length_cons] at this
        omega
      unfold trnProcessArgs
      rw [if_pos h]
      rw [show ((a :: b :: r).set 0 .null).set 1 .null = .null :: .null :: r from rfl]
      have hlen : (a :: b :: r).length - 1 = (r.length - 1) + 1 + 1 := by
        simp
        omega
      rw [hlen]
      show uCompact (.null :: .null :: r.set (r.length - 1) .null)
          = uCompact ((a :: b :: r).drop 2).dropLast
      rw [uCompact_null_cons, uCompact_null_cons,
        setLast_uCompact r (by cases r with | nil => simp at hr | cons x xs => simp)]
      rfl

theorem mem_trProcessArgs_truthy (args : List JsVal) (v : JsVal) (h2 : 2 ≤ args.length)
    (hv : v ∈ trProcessArgs args) : v.truthy = true := by
  unfold trProcessArgs at hv
  rw [if_pos h2] at hv
  unfold uCompact at hv
  exact (List.mem_filter.mp hv).2

theorem mem_trnProcessArgs_truthy (args : List JsVal) (v : JsVal) (h4 : 4 ≤ args.length)
    (hv : v ∈ trnProcessArgs args) : v.truthy = true := by
  unfold trnProcessArgs at hv
  rw [if_pos h4] at hv
  unfold uCompact at hv
  exact (List.mem_filter.mp hv).2

/-- C3: for every call to an attached translation closure (created by
`loadLanguage` with the truthy catalog captured), the call returns
normally — a formatting failure never propagates an exception to the
caller.  The no-catalog fallback path, where `vsprintf` can fail, behaves
as described in the class variant: the format error is caught and the
untranslated template text is returned verbatim, the singular or plural
template chosen by `number === 1`. -/
theorem C3_no_exception_propagation :
    (∀ (c : Catalog) (vs : Vsprintf) (argsIn : List JsVal),
        exceptOk (attachTr c vs argsIn).result = true) ∧
    (∀ (c : Catalog) (vs : Vsprintf) (argsIn : List JsVal),
        exceptOk (attachTrn c vs argsIn).result = true) ∧
    (∀ (vs : Vsprintf) (argsIn : List JsVal), (∀ t a, vs t a = .error ()) →
        (trClass_body none vs argsIn).result = .ok (argsIn.headD .undef) ∧
        (trnClass_body none vs argsIn).result =
          .ok (if (argsIn[2]?).getD .undef = JsVal.num 1 then argsIn.headD .undef
               else (argsIn[1]?).getD .undef)) := by
  refine ⟨fun c vs argsIn => rfl, fun c vs argsIn => rfl, fun vs argsIn h => ⟨?_, ?_⟩⟩
  · simp [trClass_body, h]
  · by_cases hn : (argsIn[2]?).getD JsVal.undef = JsVal.num 1
    · simp [trnClass_body, h, hn]
    · simp [trnClass_body, h, hn]

theorem C3_no_exception_propagation_witness :
    exceptOk (attachTr catEx vsFail [.str "Hello", .num 0]).result = true ∧
    (trClass_body none vsFail [.str "Hello"]).result = .ok (.str "Hello") ∧
    (trnClass_body none vsFail [.str "one", .str "many", .num 2]).result
        = .ok (.str "many") := by
  refine ⟨C3_no_exception_propagation.1 catEx vsFail _, ?_, ?_⟩
  · exact (C3_no_exception_propagation.2.2 vsFail [.str "Hello"] (fun _ _ => rfl)).1
  · exact ((C3_no_exception_propagation.2.2 vsFail [.str "one", .str "many", .num 2]
      (fun _ _ => rfl)).2).trans (by rfl)

/-- C5: in an attached translate call with at least two arguments, the
first and last positional slots are nulled out and compacted away before
the remaining arguments reach the formatter (equivalently, the formatter
receives the compacted middle slice); in a translateWithPlural call with
at least four arguments, the first, second and last slots are nulled and
compacted; with fewer arguments the argument list reaches the formatter
unchanged. -/
theorem C5_argument_compaction :
    (∀ (c : Catalog) (vs : Vsprintf) (argsIn : List JsVal), 2 ≤ argsIn.length →
        (tr_body (some c) vs argsIn).formatterArgs
            = uCompact ((argsIn.set 0 .null).set (argsIn.length - 1) .null) ∧
        (tr_body (some c) vs argsIn).formatterArgs = uCompact (argsIn.drop 1).dropLast) ∧
    (∀ (c : Catalog) (vs : Vsprintf) (argsIn : List JsVal), argsIn.length < 2 →
        (tr_body (some c) vs argsIn).formatterArgs = argsIn) ∧
    (∀ (c : Catalog) (vs : Vsprintf) (argsIn : List JsVal), 4 ≤ argsIn.length →
        (trn_body (some c) vs argsIn).formatterArgs
            = uCompact (((argsIn.set 0 .null).set 1 .null).set (argsIn.length - 1) .null) ∧
        (trn_body (some c) vs argsIn).formatterArgs = uCompact (argsIn.drop 2).dropLast) ∧
    (∀ (c : Catalog) (vs : Vsprintf) (argsIn : List JsVal), argsIn.length < 4 →
        (trn_body (some c) vs argsIn).formatterArgs = argsIn) := by
  refine ⟨fun c vs argsIn h => ⟨?_, ?_⟩, fun c vs argsIn h => ?_,
    fun c vs argsIn h => ⟨?_, ?_⟩, fun c vs argsIn h => ?_⟩
  · show trProcessArgs argsIn = _
    unfold trProcessArgs
    rw [if_pos h]
  · exact trProcessArgs_middle argsIn h
  · show trProcessArgs argsIn = argsIn
    unfold trProcessArgs
    rw [if_neg (by omega)]
  · show trnProcessArgs argsIn = _
    unfold trnProcessArgs
    rw [if_pos h]
  · exact trnProcessArgs_middle argsIn h
  · show trnProcessArgs argsIn = argsIn
    unfold trnProcessArgs
    rw [if_neg (by omega)]

theorem C5_argument_compaction_witness :
    (tr_body (some catEx) vsFail [.str "a", .num 5, .str "cb"]).formatterArgs
        = uCompact ((([.str "a", .num 5, .str "cb"] : List JsVal).set 0 .null).set 2 .null) ∧
    (tr_body (some catEx) vsFail [.str "solo"]).formatterArgs = [.str "solo"] ∧
    (trn_body (some catEx) vsFail
        [.str "one", .str "many", .num 3, .num 7, .str "cb"]).formatterArgs
        = uCompact (((([.str "one", .str "many", .num 3, .num 7, .str "cb"] : List JsVal).set
            0 .null).set 1 .null).set 4 .null) ∧
    (trn_body (some catEx) vsFail [.str "one", .str "many", .num 3]).formatterArgs
        = [.str "one", .str "many", .num 3] := by
  refine ⟨(C5_argument_compaction.1 catEx vsFail _ (by decide)).1,
    C5_argument_compaction.2.1 catEx vsFail _ (by decide),
    (C5_argument_compaction.2.2.1 catEx vsFail _ (by decide)).1,
    C5_argument_compaction.2.2.2 catEx vsFail _ (by decide)⟩

/-- C9: in the nulling regimes (translate with at least 2 arguments,
translateWithPlural with at least 4), the `_.compact` step removes every
falsy argument, not only the deliberately nulled slots, so every value
reaching the formatter is truthy; concretely, caller-supplied falsy
substitution values such as 0, the empty string and false are silently
dropped. -/
theorem C9_falsy_arguments_dropped :
    (∀ (argsIn : List JsVal) (v : JsVal), 2 ≤ argsIn.length →
        v ∈ trProcessArgs argsIn → v.truthy = true) ∧
    (∀ (argsIn : List JsVal) (v : JsVal), 4 ≤ argsIn.length →
        v ∈ trnProcessArgs argsIn → v.truthy = true) ∧
    trProcessArgs [.str "t", .num 0, .str "x", .obj 3] = [.str "x"] ∧
    trnProcessArgs [.str "one", .str "many", .num 2, .num 0, .str "", .bool false, .obj 9]
        = [.num 2] :=
  ⟨mem_trProcessArgs_truthy, mem_trnProcessArgs_truthy, by decide, by decide⟩

theorem C9_falsy_arguments_dropped_witness :
    JsVal.truthy (.str "x") = true ∧ JsVal.truthy (.num 2) = true :=
  ⟨C9_falsy_arguments_dropped.1 [.str "t", .num 0, .str "x", .obj 3] (.str "x")
      (by decide) (by decide),
   C9_falsy_arguments_dropped.2.1
      [.str "one", .str "many", .num 2, .num 0, .str "", .bool false, .obj 9] (.num 2)
      (by decide) (by decide)⟩

/-- C10: the attached closures capture the freshly constructed, hence
truthy, Jed object, so the no-catalog `vsprintf` fallback branch never
runs in them and the undefined global `Logger` in the singleton catch
handler is never dereferenced — even though, were the branch reachable
with a failing format, that dereference would occur (last two conjuncts
exercise the raw branch with a falsy captured reference). -/
theorem C10_fallback_unreachable :
    (∀ (c : Catalog) (vs : Vsprintf) (argsIn : List JsVal),
        (attachTr c vs argsIn).usedFallback = false ∧
        (attachTr c vs argsIn).evaluatedLogger = false) ∧
    (∀ (c : Catalog) (vs : Vsprintf) (argsIn : List JsVal),
        (attachTrn c vs argsIn).usedFallback = false ∧
        (attachTrn c vs argsIn).evaluatedLogger = false) ∧
    (tr_body none vsFail [.str "x", .num 1]).evaluatedLogger = true ∧
    (trn_body none vsFail [.str "a", .str "b", .num 1]).evaluatedLogger = true :=
  ⟨fun _ _ _ => ⟨rfl, rfl⟩, fun _ _ _ => ⟨rfl, rfl⟩, rfl, rfl⟩

end I18nModel

namespace I18nModel

/-! Helper lemmas about the association-list maps and the initialization
loop. -/

theorem lookupA_some_mem {α : Type} : ∀ (m : List (String × α)) (k : String) (v : α),
    lookupA m k = some v → k ∈ keysA m
  | [], k, v, h => by simp [lookupA] at h
  | (k0, v0) :: rest, k, v, h => by
      by_cases hk : k0 = k
      · subst hk
        simp [keysA]
      · simp only [lookupA, if_neg hk] at h
        exact List.mem_cons_of_mem _ (lookupA_some_mem rest k v h)

theorem mem_keysA_insertA {α : Type} : ∀ (m : List (String × α)) (k k0 : String) (v : α),
    (k0 ∈ keysA (insertA m k v)) ↔ (k0 ∈ keysA m ∨ k0 = k)
  | [], k, k0, v => by simp [insertA, keysA]
  | (k1, v1) :: rest, k, k0, v => by
      by_cases hk : k1 = k
      · subst hk
        simp [insertA, keysA]
        tauto
      · have ih := mem_keysA_insertA rest k k0 v
        simp [insertA, hk, keysA] at ih ⊢
        tauto

/-- Full case analysis of one initialization item: on a failing outcome the
state is untouched and the error is reported; on success the locale built
from the parsed data is registered and, when the default is falsy, becomes
the default. -/
theorem initItem_cases (env : Env) (st : St) (code : String) :
    initItem env st code
      = (match itemOutcome env st.languages st.pathToTranslations code with
         | some e => (st, some e)
         | none =>
             ({ st with
                 loadedLanguages := insertA st.loadedLanguages code
                   (loadedLocale env st.pathToTranslations code),
                 defaultLocale :=
                   if st.defaultLocale.truthy then st.defaultLocale
                   else .locale (loadedLocale env st.pathToTranslations code) }, none)) := by
  unfold initItem itemOutcome loadLanguage loadedLocale
  cases hl : lookupA st.languages code with
  | none => simp
  | some inf =>
      cases hb : (inf.name != "" && inf.plurals != "") with
      | false => simp [hb]
      | true =>
          cases hf : env.fileExists (poFileName st.pathToTranslations code) with
          | false => simp [hb, hf]
          | true =>
              cases hp : env.parsePo (poFileName st.pathToTranslations code) with
              | error e => simp [hb, hf, hp]
              | ok n =>
                  cases ht : st.defaultLocale.truthy with
                  | false => simp [hb, hf, hp, ht]
                  | true => simp [hb, hf, hp, ht]

theorem initItem_fail_eq (env : Env) (st : St) (code : String) (e : String)
    (h : itemOutcome env st.languages st.pathToTranslations code = some e) :
    initItem env st code = (st, some e) := by
  rw [initItem_cases env st code, h]

theorem initItem_ok_eq (env : Env) (st : St) (code : String)
    (h : itemOutcome env st.languages st.pathToTranslations code = none) :
    initItem env st code
      = ({ st with
            loadedLanguages := insertA st.loadedLanguages code
              (loadedLocale env st.pathToTranslations code),
            defaultLocale :=
              if st.defaultLocale.truthy then st.defaultLocale
              else .locale (loadedLocale env st.pathToTranslations code) }, none) := by
  rw [initItem_cases env st code, h]

theorem initItem_default_truthy (env : Env) (st : St) (code : String)
    (h : st.defaultLocale.truthy = true) :
    (initItem env st code).fst.defaultLocale = st.defaultLocale := by
  cases ho : itemOutcome env st.languages st.pathToTranslations code with
  | none => rw [initItem_ok_eq env st code ho]; simp [h]
  | some e => rw [initItem_fail_eq env st code e ho]

theorem itemOutcome_none_mem (env : Env) (langs : List (String × LangInfo)) (ptt : String)
    (code : String) (h : itemOutcome env langs ptt code = none) : code ∈ keysA langs := by
  unfold itemOutcome at h
  cases hl : lookupA langs code with
  | none => simp [hl] at h
  | some inf => exact lookupA_some_mem langs code inf hl

/-- Main induction over the initialization fan-out: the registry and path
are untouched, the aggregate error is the first per-item error in list
order, and the keys of `loadedLanguages` afterwards are the previous keys
plus exactly the codes whose item succeeded. -/
theorem initLoop_spec (env : Env) (codes : List String) (st : St) :
    (initLoop env codes st).fst.languages = st.languages ∧
    (initLoop env codes st).fst.pathToTranslations = st.pathToTranslations ∧
    (initLoop env codes st).snd
      = (codes.filterMap (itemOutcome env st.languages st.pathToTranslations)).head? ∧
    ∀ k, k ∈ keysA (initLoop env codes st).fst.loadedLanguages ↔
      (k ∈ keysA st.loadedLanguages ∨
        (k ∈ codes ∧ itemOutcome env st.languages st.pathToTranslations k = none)) := by
  induction codes generalizing st with
  | nil =>
      refine ⟨rfl, rfl, rfl, fun k => ?_⟩
      show k ∈ keysA st.loadedLanguages ↔ _
      simp
  | cons c cs ih =>
    cases ho : itemOutcome env st.languages st.pathToTranslations c with
    | some e =>
        have hi := initItem_fail_eq env st c e ho
        simp only [initLoop, hi]
        obtain ⟨h1, h2, h3, h4⟩ := ih st
        refine ⟨h1, h2, ?_, ?_⟩
        · simp [List.filterMap_cons, ho]
        · intro k
          rw [h4 k]
          constructor
          · rintro (hk | ⟨hk1, hk2⟩)
            · exact Or.inl hk
            · exact Or.inr ⟨List.mem_cons_of_mem _ hk1, hk2⟩
          · rintro (hk | ⟨hk1, hk2⟩)
            · exact Or.inl hk
            · rcases List.mem_cons.mp hk1 with rfl | hmem
              · rw [ho] at hk2; cases hk2
              · exact Or.inr ⟨hmem, hk2⟩
    | none =>
        have hi := initItem_ok_eq env st c ho
        simp only [initLoop, hi]
        obtain ⟨h1, h2, h3, h4⟩ := ih
          ({ st with
              loadedLanguages := insertA st.loadedLanguages c
                (loadedLocale env st.pathToTranslations c),
              defaultLocale :=
                if st.defaultLocale.truthy then st.defaultLocale
                else .locale (loadedLocale env st.pathToTranslations c) })
        refine ⟨h1, h2, ?_, ?_⟩
        · simp only [List.filterMap_cons, ho, Option.none_orElse]
          exact h3
        · intro k
          rw [h4 k]
          rw [show keysA ({ st with
              loadedLanguages := insertA st.loadedLanguages c
                (loadedLocale env st.pathToTranslations c),
              defaultLocale :=
                if st.defaultLocale.truthy then st.defaultLocale
                else .locale (loadedLocale env st.pathToTranslations c) } :
                St).loadedLanguages
            = keysA (insertA st.loadedLanguages c
                (loadedLocale env st.pathToTranslations c)) from rfl]
          rw [mem_keysA_insertA]
          constructor
          · rintro ((hk | rfl) | ⟨hk1, hk2⟩)
            · exact Or.inl hk
            · exact Or.inr ⟨List.mem_cons_self _ _, ho⟩
            · exact Or.inr ⟨List.mem_cons_of_mem _ hk1, hk2⟩
          · rintro (hk | ⟨hk1, hk2⟩)
            · exact Or.inl (Or.inl hk)
            · rcases List.mem_cons.mp hk1 with rfl | hmem
              · exact Or.inl (Or.inr rfl)
              · exact Or.inr ⟨hmem, hk2⟩

theorem initLoop_default_truthy (env : Env) (codes : List String) (st : St)
    (h : st.defaultLocale.truthy = true) :
    (initLoop env codes st).fst.defaultLocale = st.defaultLocale := by
  induction codes generalizing st with
  | nil => rfl
  | cons c cs ih =>
    simp only [initLoop]
    have hd := initItem_default_truthy env st c h
    have ht : (initItem env st c).fst.defaultLocale.truthy = true := by rw [hd]; exact h
    rw [ih (initItem env st c).fst ht, hd]

theorem initLoop_default_falsy (env : Env) (codes : List String) (st : St)
    (h : st.defaultLocale.truthy = false) :
    (initLoop env codes st).fst.defaultLocale
      = (match firstSuccess env st.languages st.pathToTranslations codes with
         | some c => LocRef.locale (loadedLocale env st.pathToTranslations c)
         | none => st.defaultLocale) := by
  induction codes generalizing st with
  | nil => rfl
  | cons c cs ih =>
    cases ho : itemOutcome env st.languages st.pathToTranslations c with
    | none =>
        simp only [initLoop]
        have hd : (initItem env st c).fst.defaultLocale
            = .locale (loadedLocale env st.pathToTranslations c) := by
          rw [initItem_ok_eq env st c ho]
          simp [h]
        have ht : (initItem env st c).fst.defaultLocale.truthy = true := by
          rw [hd]
          rfl
        rw [initLoop_default_truthy env cs _ ht, hd]
        simp [firstSuccess, ho]
    | some e =>
        have hi := initItem_fail_eq env st c e ho
        simp only [initLoop, hi]
        rw [ih st h]
        simp [firstSuccess, ho]

end I18nModel

namespace I18nModel

theorem Inv_iff (st : St) :
    Inv st = true ↔ ∀ k ∈ keysA st.loadedLanguages, k ∈ keysA st.languages := by
  simp [Inv, List.all_eq_true]

theorem runInit_Inv (env : Env) (st : St) (h : Inv st = true) :
    Inv (runInit env st).fst = true := by
  unfold runInit
  obtain ⟨h1, _, _, h4⟩ := initLoop_spec env st.languageCodes st
  rw [Inv_iff] at h ⊢
  intro k hk
  rw [h1]
  rcases (h4 k).mp hk with hk2 | ⟨_, hk3⟩
  · exact h k hk2
  · exact itemOutcome_none_mem env st.languages st.pathToTranslations k hk3

/-- C2: initialization attempts every language code of the registry; the
completion callback receives the first per-item error in order (or none),
reported only once the deterministic fan-out over all items has finished;
a code whose item fails is absent from `loadedLanguages` while every
successfully loading sibling is present — no abort on a single failure. -/
theorem C2_initialization_spec :
    ∀ (env : Env) (st : St), st.loadedLanguages = [] →
      st.languageCodes = keysA st.languages →
      ((runInit env st).snd
        = (st.languageCodes.filterMap
            (itemOutcome env st.languages st.pathToTranslations)).head?) ∧
      (∀ code, code ∈ keysA (runInit env st).fst.loadedLanguages ↔
        (code ∈ st.languageCodes ∧
          itemOutcome env st.languages st.pathToTranslations code = none)) := by
  intro env st h0 _
  obtain ⟨_, _, h3, h4⟩ := initLoop_spec env st.languageCodes st
  refine ⟨h3, fun code => ?_⟩
  rw [show (runInit env st).fst = (initLoop env st.languageCodes st).fst from rfl]
  rw [h4 code, h0]
  simp [keysA]

theorem C2_initialization_spec_witness :
    (runInit envOk (configure "/app" optsDe).fst).snd = none ∧
    ("de" ∈ keysA (runInit envOk (configure "/app" optsDe).fst).fst.loadedLanguages ↔
      ("de" ∈ (configure "/app" optsDe).fst.languageCodes ∧
        itemOutcome envOk (configure "/app" optsDe).fst.languages
          (configure "/app" optsDe).fst.pathToTranslations "de" = none)) := by
  have h := C2_initialization_spec envOk (configure "/app" optsDe).fst rfl rfl
  exact ⟨h.1.trans (by decide), h.2 "de"⟩

/-- C7: after any sequence of configure / initialize / getLocaleForLanguage
/ middleware operations from a state satisfying it, every key of
`loadedLanguages` is a key of the registry; `configure` establishes the
invariant, `getLocaleForLanguage` leaves the whole state untouched, and
the middleware step never changes `loadedLanguages`. -/
theorem C7_loaded_languages_invariant :
    (∀ (cwd : String) (o : ConfigOptions), Inv (configure cwd o).fst = true) ∧
    (∀ (st : St) (ops : List Op), Inv st = true →
        Inv (ops.foldl stepOp st) = true) ∧
    (∀ (st : St) (code : Option String), stepOp st (.opGetLocale code) = st) ∧
    (∀ st : St, (stepOp st .opMiddleware).loadedLanguages = st.loadedLanguages) := by
  have hconf : ∀ (cwd : String) (o : ConfigOptions), Inv (configure cwd o).fst = true := by
    intro cwd o
    rw [Inv_iff]
    intro k hk
    simp [configure, keysA] at hk
  have hmw : ∀ st : St, (stepOp st .opMiddleware).loadedLanguages = st.loadedLanguages
      ∧ (stepOp st .opMiddleware).languages = st.languages := by
    intro st
    unfold stepOp middlewareStep
    cases st.middlewareCodes <;> simp
  refine ⟨hconf, ?_, fun st code => rfl, fun st => (hmw st).1⟩
  intro st ops h
  induction ops generalizing st with
  | nil => exact h
  | cons op rest ih =>
      refine ih (stepOp st op) ?_
      cases op with
      | opConfigure cwd o => exact hconf cwd o
      | opInit env => exact runInit_Inv env st h
      | opGetLocale code => exact h
      | opMiddleware =>
          rw [Inv_iff] at h ⊢
          rw [(hmw st).1, (hmw st).2]
          exact h

theorem C7_loaded_languages_invariant_witness :
    Inv (List.foldl stepOp stEx
      [Op.opInit envOk, Op.opGetLocale (some "de"), Op.opMiddleware]) = true ∧
    stepOp stEx (.opGetLocale (some "fr")) = stEx :=
  ⟨C7_loaded_languages_invariant.2.1 stEx
      [Op.opInit envOk, Op.opGetLocale (some "de"), Op.opMiddleware] (by decide),
   C7_loaded_languages_invariant.2.2.1 stEx (some "fr")⟩

/-- C4 as stated is false on the code: here `configure` is called without a
`defaultLocale` option ("no default locale was configured"), so the code
substitutes the truthy "en"; the language "de" then loads successfully and
a first `LoadedLocale` ⟨"de", 7⟩ is created, yet the default locale remains
the string "en" rather than that first locale. -/
theorem C4_counterexample :
    (runInit envOk (configure "/app" optsDe).fst).fst.defaultLocale = .str "en" ∧
    (runInit envOk (configure "/app" optsDe).fst).fst.loadedLanguages
      = [("de", ⟨"de", 7⟩)] ∧
    (LocRef.str "en" : LocRef) ≠ .locale ⟨"de", 7⟩ :=
  ⟨by decide, by decide, by decide⟩

/-- C4 (amended): `configure` stores the configured default code, substituting
"en" whenever the option is not a string, so after a normal `configure` the
default is a truthy string and loading never changes the default; only when
the default is falsy at load time (configure never ran, or the default was
configured as the empty string) does the first successfully loaded locale
become the default (first-loaded-wins). -/
theorem C4_default_first_loaded :
    (∀ (cwd : String) (o : ConfigOptions) (s : String), o.defaultLocale = .str s →
        (configure cwd o).fst.defaultLocale = .str s) ∧
    (∀ (cwd : String) (o : ConfigOptions), (∀ s, o.defaultLocale ≠ .str s) →
        (configure cwd o).fst.defaultLocale = .str "en") ∧
    (∀ (env : Env) (st : St), st.defaultLocale.truthy = true →
        (runInit env st).fst.defaultLocale = st.defaultLocale) ∧
    (∀ (env : Env) (st : St) (c : String), st.defaultLocale.truthy = false →
        firstSuccess env st.languages st.pathToTranslations st.languageCodes = some c →
        (runInit env st).fst.defaultLocale
          = .locale (loadedLocale env st.pathToTranslations c)) := by
  refine ⟨?_, ?_, ?_, ?_⟩
  · intro cwd o s h
    simp [configure, h]
  · intro cwd o h
    cases hd : o.defaultLocale with
    | str s => exact absurd hd (h s)
    | null => simp [configure, hd]
    | undef => simp [configure, hd]
    | bool b => simp [configure, hd]
    | num n => simp [configure, hd]
    | obj i => simp [configure, hd]
    | func i => simp [configure, hd]
  · intro env st h
    exact initLoop_default_truthy env st.languageCodes st h
  · intro env st c h hf
    unfold runInit
    rw [initLoop_default_falsy env st.languageCodes st h, hf]

theorem C4_default_first_loaded_witness :
    (configure "/app" ⟨.str "de", some [("de", deInfo)], .undef⟩).fst.defaultLocale
        = .str "de" ∧
    (runInit envOk
        (configure "/app" ⟨.str "de", some [("de", deInfo)], .undef⟩).fst).fst.defaultLocale
        = .str "de" ∧
    (runInit envOk
        { stEx with defaultLocale := .str "", loadedLanguages := [] }).fst.defaultLocale
        = .locale (loadedLocale envOk "/app/i18n" "de") := by
  refine ⟨C4_default_first_loaded.1 "/app" _ "de" rfl, ?_, ?_⟩
  · exact (C4_default_first_loaded.2.2.1 envOk
      (configure "/app" ⟨.str "de", some [("de", deInfo)], .undef⟩).fst (by decide)).trans
      (C4_default_first_loaded.1 "/app" _ "de" rfl)
  · exact C4_default_first_loaded.2.2.2 envOk
      { stEx with defaultLocale := .str "", loadedLanguages := [] } "de"
      (by decide) (by decide)

/-- C1: when `code` is truthy and present in `loadedLanguages`, both
variants return that entry; otherwise the singleton variant returns
whatever the configured `defaultLocale` variable holds, while the class
variant looks the default up in `loadedLanguages` by its key — which can
be absent (`none`) when the default code never successfully loaded, as the
closing concrete conjunct shows. -/
theorem C1_locale_resolution :
    (∀ (st : St) (s : String) (l : Locale), s ≠ "" →
        lookupA st.loadedLanguages s = some l →
        getLocaleForLanguage st (some s) = .locale l ∧
        classGetLocaleForLanguage st (some s) = some l) ∧
    (∀ (st : St) (code : Option String),
        (∀ s, code = some s → s = "" ∨ lookupA st.loadedLanguages s = none) →
        getLocaleForLanguage st code = st.defaultLocale ∧
        classGetLocaleForLanguage st code
          = lookupA st.loadedLanguages st.defaultLocale.key) ∧
    (classGetLocaleForLanguage stEx (some "fr") = none ∧
      stEx.defaultLocale = .str "en" ∧ lookupA stEx.loadedLanguages "en" = none) := by
  refine ⟨?_, ?_, by decide, by decide, by decide⟩
  · intro st s l hs hl
    constructor
    · simp [getLocaleForLanguage, hl, hs]
    · simp [classGetLocaleForLanguage, hl, hs]
  · intro st code h
    cases code with
    | none => exact ⟨rfl, rfl⟩
    | some s =>
        rcases h s rfl with hs | hl
        · subst hs
          exact ⟨rfl, rfl⟩
        · by_cases hs : s = ""
          · subst hs
            exact ⟨rfl, rfl⟩
          · constructor
            · simp [getLocaleForLanguage, hl, hs]
            · simp [classGetLocaleForLanguage, hl, hs]

theorem C1_locale_resolution_witness :
    getLocaleForLanguage stEx (some "de") = .locale ⟨"de", 1⟩ ∧
    classGetLocaleForLanguage stEx (some "de") = some ⟨"de", 1⟩ ∧
    getLocaleForLanguage stEx (some "fr") = .str "en" ∧
    classGetLocaleForLanguage stEx (some "fr") = none := by
  have h1 := C1_locale_resolution.1 stEx "de" ⟨"de", 1⟩ (by decide) (by decide)
  have h2 := C1_locale_resolution.2.1 stEx (some "fr") ?hmiss
  case hmiss =>
    intro s hs
    injection hs with hs
    subst hs
    right
    decide
  exact ⟨h1.1, h1.2, h2.1, h2.2.trans (by decide)⟩

/-- C8 as stated is false on the code: with an empty registry the module
logs "No languages defined, nothing to handle" through the configured
ERROR callback (`logError` / `this.logErrorFn`), not the warn callback —
the emitted event list contains exactly one event, at error level. -/
theorem C8_counterexample :
    (configure "/app" ⟨.undef, some [], .undef⟩).snd
      = [⟨.error, "No languages defined, nothing to handle"⟩] ∧
    LogLevel.error ≠ LogLevel.warn :=
  ⟨by decide, by decide⟩

/-- C8 (amended): configuration with an empty language registry emits an
error-level log via the configured error callback; it is not fatal — the
state is still fully established, with the defaults defaultLocale = "en"
and pathToTranslations = cwd/i18n when those options are absent; a
nonempty registry logs nothing. -/
theorem C8_empty_registry_error_log :
    ∀ (cwd : String) (o : ConfigOptions),
      (o.languages = some [] ∨ o.languages = none →
        (configure cwd o).snd
          = [⟨.error, "No languages defined, nothing to handle"⟩]) ∧
      ((configure cwd o).fst.languages ≠ [] → (configure cwd o).snd = []) ∧
      (o.defaultLocale = .undef → (configure cwd o).fst.defaultLocale = .str "en") ∧
      (o.pathToTranslations = .undef →
        (configure cwd o).fst.pathToTranslations = pathJoin cwd "i18n") := by
  intro cwd o
  refine ⟨?_, ?_, ?_, ?_⟩
  · rintro (h | h) <;> simp [configure, h, keysA]
  · intro h
    rcases hl : o.languages with _ | l
    · rw [show (configure cwd o).fst.languages = o.languages.getD [] from rfl, hl] at h
      exact absurd rfl h
    · rw [show (configure cwd o).fst.languages = o.languages.getD [] from rfl, hl] at h
      show (if (keysA (o.languages.getD [])).length = 0 then _ else ([] : List LogEvent)) = []
      rw [hl]
      rw [if_neg ?hne]
      case hne =>
        have hlen : (keysA ((some l).getD [])).length = l.length := by simp [keysA]
        rw [hlen]
        simpa [List.length_eq_zero] using h
  · intro h
    simp [configure, h]
  · intro h
    simp [configure, h]

theorem C8_empty_registry_error_log_witness :
    (configure "/app" ⟨.undef, none, .undef⟩).snd
      = [⟨.error, "No languages defined, nothing to handle"⟩] ∧
    (configure "/app" optsDe).snd = [] ∧
    (configure "/app" ⟨.undef, none, .undef⟩).fst.defaultLocale = .str "en" ∧
    (configure "/app" ⟨.undef, none, .undef⟩).fst.pathToTranslations
      = pathJoin "/app" "i18n" := by
  have h1 := C8_empty_registry_error_log "/app" ⟨.undef, none, .undef⟩
  have h2 := C8_empty_registry_error_log "/app" optsDe
  exact ⟨h1.1 (Or.inr rfl), h2.2.1 (by decide), h1.2.2.1 rfl, h1.2.2.2 rfl⟩

/-- C6: the wrapped render, when called without an explicit callback and
with a function in the options slot, treats the options as the callback
and synthesizes a fresh empty options object; in every case the merged
options carry a `helpers` object binding tr and __ to the resolved
locale's translate closure and trn and _n to its plural closure (an
existing `helpers` field of the caller's options is overridden), and the
original render is then invoked with the view, merged options and
callback. -/
theorem C6_render_wrapping :
    (∀ (l : Locale) (view : String) (f : Nat),
        wrapRender l view (.fn f) none
          = { view := view, fields := [], helpers := mkHelpers l,
              callback := some f }) ∧
    (∀ (l : Locale) (view : String) (o : OptArg) (cb : Option Nat),
        (wrapRender l view o cb).helpers
          = [("tr", .trFn l), ("__", .trFn l), ("trn", .trnFn l), ("_n", .trnFn l)]) ∧
    (∀ (l : Locale) (view : String) (fs : List (String × JsVal)) (cb : Option Nat),
        wrapRender l view (.obj fs) cb
          = { view := view, fields := fs.filter (fun q => q.fst != "helpers"),
              helpers := mkHelpers l, callback := cb }) ∧
    (∀ (l : Locale) (view : String) (f g : Nat),
        wrapRender l view (.fn f) (some g)
          = { view := view, fields := [], helpers := mkHelpers l,
              callback := some g }) ∧
    (∀ (l : Locale) (view : String) (cb : Option Nat),
        wrapRender l view .undef cb
          = { view := view, fields := [], helpers := mkHelpers l,
              callback := cb }) := by
  refine ⟨fun l view f => rfl, ?_, ?_, fun l view f g => rfl, ?_⟩
  · intro l view o cb
    cases cb <;> cases o <;> rfl
  · intro l view fs cb
    cases cb <;> rfl
  · intro l view cb
    cases cb <;> rfl

end I18nModel
